import Mathlib

/-!
Shallow embedding of `src/main.rs` (Knaive-Bayes): a two-class naive Bayes
text classifier with add-one smoothing, log-domain scoring, and 10-fold
cross-validation.

Conventions of the embedding:

* `f64` arithmetic is idealized as exact arithmetic: probabilities and the
  recall/precision metrics live in `ℚ`; the log-domain scores of the
  classifier live in `ℝ` (`Real.logb 10`).
* `HashMap<u32, _>` and `HashSet<u32>` are modelled as an association list
  `List (Nat × _)` and a duplicate-free `List Nat`; the program only uses
  `get` and `insert`, and iteration order is insertion order.
* A file path is modelled as a `Document` record carrying exactly the data
  the program extracts from a path: the parsed token list (`none` when the
  file cannot be read, mirroring a failed `file_to_array`), and the path
  predicates `contains "spmsg"`, `contains "unused"`, and the `part<i>`
  fold marker kept as an explicit fold index (the design notes §4.3/§9
  themselves prescribe an explicit fold index for a faithful model of the
  path-substring test).
* The source's log-domain comparison
  `spam + p.spam.log10() >= legit + p.legit.log10()` is realized computably
  as the comparison of the corresponding products
  `acc_legit * p.legit <= acc_spam * p.spam`; for the positive probability
  values the program actually manipulates the two are equivalent, and the
  equivalence with the literal log10 scores is proved below.
-/

/-- A corpus file, as `main.rs` sees it: the tokenized contents
(`file_to_array`, `none` on a read error), and the three facts the program
derives from the file's path. -/
structure Document where
  tokens : Option (List Nat)
  spmsg : Bool
  unused : Bool
  part : Nat
deriving DecidableEq

/-- `HashMap::get` on an association list. -/
def mapGet {α : Type} : List (Nat × α) → Nat → Option α
  | [], _ => none
  | (k, v) :: rest, w => if k = w then some v else mapGet rest w

/-- `HashMap::insert` on an association list (replaces an existing binding,
otherwise appends). -/
def mapInsert {α : Type} : List (Nat × α) → Nat → α → List (Nat × α)
  | [], w, v => [(w, v)]
  | (k, u) :: rest, w, v => if k = w then (w, v) :: rest else (k, u) :: mapInsert rest w v

/-- `HashSet::insert`. -/
def setInsert (s : List Nat) (w : Nat) : List Nat :=
  if w ∈ s then s else s ++ [w]

/-- `*occurences.entry(word).or_insert(1) += 1` from `learn_naive_bayes`
(lines 103/108): the binding becomes `(current value, or 1 when absent) + 1`,
so a word's first occurrence stores `2`. -/
def bumpOcc (m : List (Nat × Nat)) (w : Nat) : List (Nat × Nat) :=
  mapInsert m w (((mapGet m w).getD 1) + 1)

/-- The `NaiveBayesProbabilities` struct of `main.rs`. -/
structure NaiveBayesProbabilities where
  spam : ℚ
  legit : ℚ
  word_spam : List (Nat × ℚ)
  word_legit : List (Nat × ℚ)

/-- The mutable accumulators of `learn_naive_bayes` (lines 75-84). -/
structure LearnState where
  total : Nat
  spam : Nat
  legit : Nat
  n_spam : Nat
  n_legit : Nat
  word_set : List Nat
  occurences_spam : List (Nat × Nat)
  occurences_legit : List (Nat × Nat)

/-- All accumulators start at zero / empty. -/
def initState : LearnState := ⟨0, 0, 0, 0, 0, [], [], []⟩

/-- Body of `for word in example` in `learn_naive_bayes` (lines 99-111). -/
def wordStep (is_spam : Bool) (st : LearnState) (word : Nat) : LearnState :=
  if is_spam then
    { st with word_set := setInsert st.word_set word,
              occurences_spam := bumpOcc st.occurences_spam word,
              n_spam := st.n_spam + 1 }
  else
    { st with word_set := setInsert st.word_set word,
              occurences_legit := bumpOcc st.occurences_legit word,
              n_legit := st.n_legit + 1 }

/-- Body of `for doc in data_set` in `learn_naive_bayes` (lines 86-115):
an unreadable file only prints the error, leaving the state unchanged. -/
def docStep (st : LearnState) (doc : Document) : LearnState :=
  match doc.tokens with
  | none => st
  | some ws =>
    let is_spam := doc.spmsg
    let st1 : LearnState :=
      { st with total := st.total + 1,
                spam := if is_spam then st.spam + 1 else st.spam,
                legit := if is_spam then st.legit else st.legit + 1 }
    ws.foldl (wordStep is_spam) st1

/-- The value inserted for `word`: `(1 + x) / divisor` when the class
occurrence map holds `x` for the word, `1 / divisor` otherwise
(lines 127-137). -/
def smoothedProb (occ : List (Nat × Nat)) (divisor : ℚ) (word : Nat) : ℚ :=
  match mapGet occ word with
  | some x => ((1 + x : Nat) : ℚ) / divisor
  | none => 1 / divisor

/-- `learn_naive_bayes` (lines 74-141). -/
def learn_naive_bayes (data_set : List Document) : NaiveBayesProbabilities :=
  let st := data_set.foldl docStep initState
  let p_spam : ℚ := (st.spam : ℚ) / (st.total : ℚ)
  let p_legit : ℚ := (st.legit : ℚ) / (st.total : ℚ)
  let spam_divisor : ℚ := ((st.n_spam + st.word_set.length : Nat) : ℚ)
  let legit_divisor : ℚ := ((st.n_legit + st.word_set.length : Nat) : ℚ)
  let p_word_spam := st.word_set.foldl
    (fun m word => mapInsert m word (smoothedProb st.occurences_spam spam_divisor word)) []
  let p_word_legit := st.word_set.foldl
    (fun m word => mapInsert m word (smoothedProb st.occurences_legit legit_divisor word)) []
  ⟨p_spam, p_legit, p_word_spam, p_word_legit⟩

/-- One `for word in doc` step of `classified_as_spam` (lines 152-161), the
log-domain sums `spam += x.log10()` / `legit += x.log10()` carried as the
equivalent products. -/
def classifyStep (pr : NaiveBayesProbabilities) (sl : ℚ × ℚ) (word : Nat) : ℚ × ℚ :=
  ( match mapGet pr.word_spam word with
    | some x => sl.1 * x
    | none => sl.1,
    match mapGet pr.word_legit word with
    | some x => sl.2 * x
    | none => sl.2 )

/-- `classified_as_spam` (lines 147-174): `none` for an unreadable file (the
`Err` branch); otherwise the decision
`spam + p.spam.log10() >= legit + p.legit.log10()` in product form. -/
def classified_as_spam (tokens : Option (List Nat)) (pr : NaiveBayesProbabilities) :
    Option Bool :=
  match tokens with
  | some doc =>
    let acc := doc.foldl (classifyStep pr) (1, 1)
    some (decide (acc.2 * pr.legit ≤ acc.1 * pr.spam))
  | none => none

/-- The spam score of §4.2: `log10 p_spam` plus the sum of `log10` of the
model's spam probabilities of the tokens present in the spam map. -/
noncomputable def score_spam (pr : NaiveBayesProbabilities) (doc : List Nat) : ℝ :=
  Real.logb 10 ((pr.spam : ℝ)) +
    ((doc.filterMap (fun w => mapGet pr.word_spam w)).map
      (fun x : ℚ => Real.logb 10 ((x : ℝ)))).sum

/-- The legit score of §4.2: `log10 p_legit` plus the sum of `log10` of the
model's legit probabilities of the tokens present in the legit map. -/
noncomputable def score_legit (pr : NaiveBayesProbabilities) (doc : List Nat) : ℝ :=
  Real.logb 10 ((pr.legit : ℝ)) +
    ((doc.filterMap (fun w => mapGet pr.word_legit w)).map
      (fun x : ℚ => Real.logb 10 ((x : ℝ)))).sum

/-- The four confusion counters of `test_naive_bayes` (lines 179-182). -/
structure Confusion where
  true_positive : Nat
  false_positive : Nat
  true_negative : Nat
  false_negative : Nat
deriving DecidableEq

/-- Body of `for doc in data_set` in `test_naive_bayes` (lines 183-208):
a document that cannot be read only prints the error and touches no
counter. -/
def counterStep (pr : NaiveBayesProbabilities) (c : Confusion) (doc : Document) :
    Confusion :=
  match classified_as_spam doc.tokens pr with
  | some true =>
    if doc.spmsg then { c with true_positive := c.true_positive + 1 }
    else { c with false_positive := c.false_positive + 1 }
  | some false =>
    if doc.spmsg then { c with false_negative := c.false_negative + 1 }
    else { c with true_negative := c.true_negative + 1 }
  | none => c

/-- The confusion counts accumulated by `test_naive_bayes`. -/
def test_counters (data_set : List Document) (pr : NaiveBayesProbabilities) : Confusion :=
  data_set.foldl (counterStep pr) ⟨0, 0, 0, 0⟩

/-- Spam recall `TP / (TP + FN)` (line 210). -/
def recallOf (c : Confusion) : ℚ :=
  (c.true_positive : ℚ) / ((c.true_positive + c.false_negative : Nat) : ℚ)

/-- Spam precision `TP / (TP + FP)` (line 211). -/
def precisionOf (c : Confusion) : ℚ :=
  (c.true_positive : ℚ) / ((c.true_positive + c.false_positive : Nat) : ℚ)

/-- `test_naive_bayes` (lines 178-213): returns `(spam recall, spam
precision)` over the test set's confusion counts. -/
def test_naive_bayes (data_set : List Document) (pr : NaiveBayesProbabilities) : ℚ × ℚ :=
  let c := test_counters data_set pr
  (recallOf c, precisionOf c)

/-- The `for i in 1..11` fold loop of `main` (lines 225-237) over an already
filtered `used` collection: fold `i` tests on the documents whose fold marker
is `i` and trains on all the others, and the per-fold recall and precision
are summed. -/
def cvBody (used : List Document) : ℚ × ℚ :=
  let acc := (List.range 10).foldl
    (fun (rp : ℚ × ℚ) j =>
      let i := j + 1
      let tt := used.partition (fun d => d.part == i)
      let probabilities := learn_naive_bayes tt.2
      let rp2 := test_naive_bayes tt.1 probabilities
      (rp.1 + rp2.1, rp.2 + rp2.2)) (0, 0)
  (acc.1 / 10, acc.2 / 10)

/-- The cross-validation portion of `main` (lines 223-238): drop the
documents marked "unused", run the 10 folds, and divide the summed recall
and precision by `10`. -/
def cross_validate (filenames : List Document) : ℚ × ℚ :=
  cvBody (filenames.partition (fun d => d.unused)).2

/-- The documents kept after the "unused" partition in `main` (line 223). -/
def usedDocs (docs : List Document) : List Document :=
  docs.filter (fun d => !d.unused)

/-- Fold `i`'s test set: the used documents carrying fold marker `i`. -/
def foldTestSet (docs : List Document) (i : Nat) : List Document :=
  (usedDocs docs).filter (fun d => d.part == i)

/-- Fold `i`'s training set: the used documents not carrying marker `i`. -/
def foldTrainSet (docs : List Document) (i : Nat) : List Document :=
  (usedDocs docs).filter (fun d => !(d.part == i))

/-- Fold `i`'s confusion counts: train on `foldTrainSet`, test on
`foldTestSet`. -/
def foldConfusion (docs : List Document) (i : Nat) : Confusion :=
  test_counters (foldTestSet docs i) (learn_naive_bayes (foldTrainSet docs i))

/-- The token lists of the readable documents of class `b`
(`b = true` for spam). -/
def classTokens (docs : List Document) (b : Bool) : List (List Nat) :=
  docs.filterMap (fun d => if d.spmsg = b then d.tokens else none)

/-- Occurrences of token `t` across all readable documents of class `b`
(a token appearing five times in one document contributes five). -/
def occTotal (docs : List Document) (b : Bool) (t : Nat) : Nat :=
  ((classTokens docs b).map (fun ts => ts.count t)).sum

/-- Total token occurrences in class `b` (the `n_spam` / `n_legit` of the
source). -/
def nTokens (docs : List Document) (b : Bool) : Nat :=
  ((classTokens docs b).map List.length).sum

/-- Number of readable documents (the source's `total`). -/
def readCount (docs : List Document) : Nat :=
  (docs.filterMap Document.tokens).length

/-- Number of readable spam documents. -/
def spamCount (docs : List Document) : Nat :=
  (classTokens docs true).length

/-- Number of readable legit documents. -/
def legitCount (docs : List Document) : Nat :=
  (classTokens docs false).length

/-- All token occurrences of the readable documents, in processing order. -/
def allTokens (docs : List Document) : List Nat :=
  (docs.filterMap Document.tokens).flatten

/-- The training vocabulary in first-seen order: exactly the `word_set`
the source accumulates. -/
def vocabList (docs : List Document) : List Nat :=
  (allTokens docs).foldl setInsert []

/-- The conditional probability the trained model actually stores for a
vocabulary token `t` and class `b`: because the occurrence counter starts a
word at `2` (`bumpOcc`), a token occurring `k ≥ 1` times in class `b` is
stored as `(k + 2) / (n_b + |V|)`, and a vocabulary token absent from class
`b` as `1 / (n_b + |V|)`. -/
def modelWordProb (docs : List Document) (b : Bool) (t : Nat) : ℚ :=
  ((if occTotal docs b t = 0 then 1 else occTotal docs b t + 2 : Nat) : ℚ) /
    ((nTokens docs b + (vocabList docs).length : Nat) : ℚ)

/-- First spam training document of the §8 end-to-end scenario. -/
def exSpam1 : Document := ⟨some [1, 2], true, false, 1⟩

/-- Second spam training document of the §8 end-to-end scenario. -/
def exSpam2 : Document := ⟨some [2, 3], true, false, 1⟩

/-- First legit training document of the §8 end-to-end scenario. -/
def exLegit1 : Document := ⟨some [4], false, false, 1⟩

/-- Second legit training document of the §8 end-to-end scenario. -/
def exLegit2 : Document := ⟨some [4, 5], false, false, 1⟩

/-- The §8 end-to-end training set: spam `[1,2]`, `[2,3]`; legit `[4]`,
`[4,5]`. -/
def exDocs : List Document := [exSpam1, exSpam2, exLegit1, exLegit2]

/-- A model with equal priors and empty word maps: both scores of any
document are equal under it. -/
def tieModel : NaiveBayesProbabilities := ⟨1, 1, [], []⟩

/-- A document whose file cannot be read. -/
def badDoc : Document := ⟨none, false, false, 1⟩

/-- A document marked "unused". -/
def unusedDoc : Document := ⟨some [1], true, true, 1⟩

/-! ### Association list and set lemmas -/

theorem mapGet_mapInsert {α : Type} (m : List (Nat × α)) (k t : Nat) (v : α) :
    mapGet (mapInsert m k v) t = if k = t then some v else mapGet m t := by
  induction m with
  | nil => simp [mapInsert, mapGet]
  | cons p rest ih =>
    obtain ⟨k', v'⟩ := p
    by_cases h1 : k' = k
    · subst h1
      by_cases h2 : k' = t <;> simp [mapInsert, mapGet, h2]
    · by_cases h2 : k' = t
      · subst h2
        simp [mapInsert, mapGet, h1, Ne.symm h1]
      · simp [mapInsert, mapGet, h1, h2, ih]

theorem mapGet_foldl_mapInsert {α : Type} (f : Nat → α) (ws : List Nat)
    (m : List (Nat × α)) (t : Nat) :
    mapGet (ws.foldl (fun m w => mapInsert m w (f w)) m) t =
      if t ∈ ws then some (f t) else mapGet m t := by
  induction ws generalizing m with
  | nil => simp
  | cons w ws ih =>
    rw [List.foldl_cons, ih]
    by_cases hw : t ∈ ws
    · simp [hw]
    · by_cases h : w = t
      · subst h
        simp [hw, mapGet_mapInsert]
      · simp [hw, mapGet_mapInsert, h, Ne.symm h]

theorem mapGet_bumpOcc (m : List (Nat × Nat)) (w t : Nat) :
    mapGet (bumpOcc m w) t =
      if w = t then some ((mapGet m t).getD 1 + 1) else mapGet m t := by
  unfold bumpOcc
  rw [mapGet_mapInsert]
  by_cases h : w = t
  · subst h; simp
  · simp [h]

theorem mapGet_foldl_bumpOcc (ws : List Nat) (m : List (Nat × Nat)) (t : Nat) :
    mapGet (ws.foldl bumpOcc m) t =
      if ws.count t = 0 then mapGet m t
      else some ((mapGet m t).getD 1 + ws.count t) := by
  induction ws generalizing m with
  | nil => simp
  | cons w ws ih =>
    rw [List.foldl_cons, ih, List.count_cons, mapGet_bumpOcc]
    by_cases h : w = t
    · subst h
      simp only [if_pos rfl, beq_self_eq_true, if_true]
      by_cases hc : ws.count w = 0 <;>
        simp [hc, Nat.add_comm, Nat.add_assoc, Nat.add_left_comm]
    · have h' : ¬(t == w) = true := by simp [Ne.symm h]
      simp [h, h']

theorem mem_setInsert (s : List Nat) (w t : Nat) :
    t ∈ setInsert s w ↔ t = w ∨ t ∈ s := by
  unfold setInsert
  split
  · rename_i hw
    constructor
    · exact Or.inr
    · rintro (rfl | h)
      · exact hw
      · exact h
  · simp [or_comm]

theorem mem_foldl_setInsert (ws : List Nat) (s : List Nat) (t : Nat) :
    t ∈ ws.foldl setInsert s ↔ t ∈ ws ∨ t ∈ s := by
  induction ws generalizing s with
  | nil => simp
  | cons w ws ih =>
    rw [List.foldl_cons, ih]
    rw [mem_setInsert]
    simp [or_comm, or_assoc]
    tauto

theorem nodup_setInsert (s : List Nat) (w : Nat) (h : s.Nodup) :
    (setInsert s w).Nodup := by
  unfold setInsert
  split
  · exact h
  · rename_i hw
    simp [List.nodup_append, h, hw]

theorem nodup_foldl_setInsert (ws : List Nat) (s : List Nat) (h : s.Nodup) :
    (ws.foldl setInsert s).Nodup := by
  induction ws generalizing s with
  | nil => exact h
  | cons w ws ih => exact ih _ (nodup_setInsert _ _ h)

theorem vocabList_nodup (docs : List Document) : (vocabList docs).Nodup :=
  nodup_foldl_setInsert _ _ List.nodup_nil

theorem mem_vocabList (docs : List Document) (t : Nat) :
    t ∈ vocabList docs ↔ t ∈ allTokens docs := by
  unfold vocabList
  rw [mem_foldl_setInsert]
  simp

/-! ### The word loop of `learn_naive_bayes` -/

theorem foldl_wordStep_true (ws : List Nat) (st : LearnState) :
    ws.foldl (wordStep true) st =
      { st with word_set := ws.foldl setInsert st.word_set,
                occurences_spam := ws.foldl bumpOcc st.occurences_spam,
                n_spam := st.n_spam + ws.length } := by
  induction ws generalizing st with
  | nil => simp
  | cons w ws ih =>
    rw [List.foldl_cons]
    rw [show wordStep true st w =
      { st with word_set := setInsert st.word_set w,
                occurences_spam := bumpOcc st.occurences_spam w,
                n_spam := st.n_spam + 1 } from rfl]
    rw [ih]
    simp [Nat.add_assoc, Nat.add_comm 1 ws.length]

theorem foldl_wordStep_false (ws : List Nat) (st : LearnState) :
    ws.foldl (wordStep false) st =
      { st with word_set := ws.foldl setInsert st.word_set,
                occurences_legit := ws.foldl bumpOcc st.occurences_legit,
                n_legit := st.n_legit + ws.length } := by
  induction ws generalizing st with
  | nil => simp
  | cons w ws ih =>
    rw [List.foldl_cons]
    rw [show wordStep false st w =
      { st with word_set := setInsert st.word_set w,
                occurences_legit := bumpOcc st.occurences_legit w,
                n_legit := st.n_legit + 1 } from rfl]
    rw [ih]
    simp [Nat.add_assoc, Nat.add_comm 1 ws.length]

/-! ### The document loop of `learn_naive_bayes` -/

theorem docStep_none (st : LearnState) (d : Document) (h : d.tokens = none) :
    docStep st d = st := by
  simp [docStep, h]

theorem docStep_some_true (st : LearnState) (d : Document) (ts : List Nat)
    (h : d.tokens = some ts) (hb : d.spmsg = true) :
    docStep st d =
      { st with total := st.total + 1, spam := st.spam + 1,
                word_set := ts.foldl setInsert st.word_set,
                occurences_spam := ts.foldl bumpOcc st.occurences_spam,
                n_spam := st.n_spam + ts.length } := by
  simp [docStep, h, hb, foldl_wordStep_true]

theorem docStep_some_false (st : LearnState) (d : Document) (ts : List Nat)
    (h : d.tokens = some ts) (hb : d.spmsg = false) :
    docStep st d =
      { st with total := st.total + 1, legit := st.legit + 1,
                word_set := ts.foldl setInsert st.word_set,
                occurences_legit := ts.foldl bumpOcc st.occurences_legit,
                n_legit := st.n_legit + ts.length } := by
  simp [docStep, h, hb, foldl_wordStep_false]

theorem classTokens_cons_none (d : Document) (rest : List Document) (b : Bool)
    (h : d.tokens = none) :
    classTokens (d :: rest) b = classTokens rest b := by
  simp [classTokens, List.filterMap_cons, h]

theorem classTokens_cons_eq (d : Document) (rest : List Document) (b : Bool)
    (ts : List Nat) (h : d.tokens = some ts) (hb : d.spmsg = b) :
    classTokens (d :: rest) b = ts :: classTokens rest b := by
  simp [classTokens, List.filterMap_cons, h, hb]

theorem classTokens_cons_ne (d : Document) (rest : List Document) (b : Bool)
    (hb : d.spmsg ≠ b) :
    classTokens (d :: rest) b = classTokens rest b := by
  simp [classTokens, List.filterMap_cons, hb]

theorem allTokens_cons_none (d : Document) (rest : List Document)
    (h : d.tokens = none) :
    allTokens (d :: rest) = allTokens rest := by
  simp [allTokens, List.filterMap_cons, h]

theorem allTokens_cons_some (d : Document) (rest : List Document) (ts : List Nat)
    (h : d.tokens = some ts) :
    allTokens (d :: rest) = ts ++ allTokens rest := by
  simp [allTokens, List.filterMap_cons, h]

theorem readCount_cons_none (d : Document) (rest : List Document)
    (h : d.tokens = none) :
    readCount (d :: rest) = readCount rest := by
  simp [readCount, List.filterMap_cons, h]

theorem readCount_cons_some (d : Document) (rest : List Document) (ts : List Nat)
    (h : d.tokens = some ts) :
    readCount (d :: rest) = readCount rest + 1 := by
  simp [readCount, List.filterMap_cons, h, Nat.add_comm]

theorem learnFold_spec (docs : List Document) (st : LearnState) :
    (docs.foldl docStep st).total = st.total + readCount docs ∧
    (docs.foldl docStep st).spam = st.spam + spamCount docs ∧
    (docs.foldl docStep st).legit = st.legit + legitCount docs ∧
    (docs.foldl docStep st).n_spam = st.n_spam + nTokens docs true ∧
    (docs.foldl docStep st).n_legit = st.n_legit + nTokens docs false ∧
    (docs.foldl docStep st).word_set = (allTokens docs).foldl setInsert st.word_set ∧
    (∀ t, mapGet (docs.foldl docStep st).occurences_spam t =
      if occTotal docs true t = 0 then mapGet st.occurences_spam t
      else some ((mapGet st.occurences_spam t).getD 1 + occTotal docs true t)) ∧
    (∀ t, mapGet (docs.foldl docStep st).occurences_legit t =
      if occTotal docs false t = 0 then mapGet st.occurences_legit t
      else some ((mapGet st.occurences_legit t).getD 1 + occTotal docs false t)) := by
  induction docs generalizing st with
  | nil =>
    simp [readCount, spamCount, legitCount, nTokens, occTotal, classTokens, allTokens]
  | cons d rest ih =>
    rw [List.foldl_cons]
    cases h : d.tokens with
    | none =>
      rw [docStep_none st d h]
      obtain ⟨iht, ihs, ihl, ihns, ihnl, ihw, ihos, ihol⟩ := ih st
      refine ⟨?_, ?_, ?_, ?_, ?_, ?_, ?_, ?_⟩
      · rw [iht, readCount_cons_none d rest h]
      · rw [ihs, spamCount, spamCount, classTokens_cons_none d rest true h]
      · rw [ihl, legitCount, legitCount, classTokens_cons_none d rest false h]
      · rw [ihns, nTokens, nTokens, classTokens_cons_none d rest true h]
      · rw [ihnl, nTokens, nTokens, classTokens_cons_none d rest false h]
      · rw [ihw, allTokens_cons_none d rest h]
      · intro t
        rw [ihos t, occTotal, occTotal, classTokens_cons_none d rest true h]
      · intro t
        rw [ihol t, occTotal, occTotal, classTokens_cons_none d rest false h]
    | some ts =>
      cases hb : d.spmsg with
      | true =>
        rw [docStep_some_true st d ts h hb]
        obtain ⟨iht, ihs, ihl, ihns, ihnl, ihw, ihos, ihol⟩ :=
          ih { st with total := st.total + 1, spam := st.spam + 1,
                       word_set := ts.foldl setInsert st.word_set,
                       occurences_spam := ts.foldl bumpOcc st.occurences_spam,
                       n_spam := st.n_spam + ts.length }
        refine ⟨?_, ?_, ?_, ?_, ?_, ?_, ?_, ?_⟩
        · rw [iht, readCount_cons_some d rest ts h]; simp; omega
        · rw [ihs]
          simp only [spamCount, classTokens_cons_eq d rest true ts h hb]
          simp [List.length_cons]; omega
        · rw [ihl]
          simp only [legitCount, classTokens_cons_ne d rest false (by simp [hb])]
        · rw [ihns]
          simp only [nTokens, classTokens_cons_eq d rest true ts h hb,
            List.map_cons, List.sum_cons]
          omega
        · rw [ihnl]
          simp only [nTokens, classTokens_cons_ne d rest false (by simp [hb])]
        · rw [ihw, allTokens_cons_some d rest ts h, List.foldl_append]
        · intro t
          rw [ihos t]
          simp only [mapGet_foldl_bumpOcc]
          simp only [occTotal, classTokens_cons_eq d rest true ts h hb,
            List.map_cons, List.sum_cons]
          by_cases hc1 : ts.count t = 0 <;>
            by_cases hc2 : ((classTokens rest true).map (fun l => l.count t)).sum = 0 <;>
              simp [hc1, hc2, Nat.add_eq_zero, Nat.add_assoc]
        · intro t
          rw [ihol t]
          simp only [occTotal, classTokens_cons_ne d rest false (by simp [hb])]
      | false =>
        rw [docStep_some_false st d ts h hb]
        obtain ⟨iht, ihs, ihl, ihns, ihnl, ihw, ihos, ihol⟩ :=
          ih { st with total := st.total + 1, legit := st.legit + 1,
                       word_set := ts.foldl setInsert st.word_set,
                       occurences_legit := ts.foldl bumpOcc st.occurences_legit,
                       n_legit := st.n_legit + ts.length }
        refine ⟨?_, ?_, ?_, ?_, ?_, ?_, ?_, ?_⟩
        · rw [iht, readCount_cons_some d rest ts h]; simp; omega
        · rw [ihs]
          simp only [spamCount, classTokens_cons_ne d rest true (by simp [hb])]
        · rw [ihl]
          simp only [legitCount, classTokens_cons_eq d rest false ts h hb]
          simp [List.length_cons]; omega
        · rw [ihns]
          simp only [nTokens, classTokens_cons_ne d rest true (by simp [hb])]
        · rw [ihnl]
          simp only [nTokens, classTokens_cons_eq d rest false ts h hb,
            List.map_cons, List.sum_cons]
          omega
        · rw [ihw, allTokens_cons_some d rest ts h, List.foldl_append]
        · intro t
          rw [ihos t]
          simp only [occTotal, classTokens_cons_ne d rest true (by simp [hb])]
        · intro t
          rw [ihol t]
          simp only [mapGet_foldl_bumpOcc]
          simp only [occTotal, classTokens_cons_eq d rest false ts h hb,
            List.map_cons, List.sum_cons]
          by_cases hc1 : ts.count t = 0 <;>
            by_cases hc2 : ((classTokens rest false).map (fun l => l.count t)).sum = 0 <;>
              simp [hc1, hc2, Nat.add_eq_zero, Nat.add_assoc]

/-! ### Characterization of the trained model -/

theorem learn_spam_prior (docs : List Document) :
    (learn_naive_bayes docs).spam = (spamCount docs : ℚ) / (readCount docs : ℚ) := by
  obtain ⟨iht, ihs, _, _, _, _, _, _⟩ := learnFold_spec docs initState
  simp only [learn_naive_bayes]
  rw [ihs, iht]
  simp [initState]

theorem learn_legit_prior (docs : List Document) :
    (learn_naive_bayes docs).legit = (legitCount docs : ℚ) / (readCount docs : ℚ) := by
  obtain ⟨iht, _, ihl, _, _, _, _, _⟩ := learnFold_spec docs initState
  simp only [learn_naive_bayes]
  rw [ihl, iht]
  simp [initState]

theorem learn_word_set (docs : List Document) :
    (docs.foldl docStep initState).word_set = vocabList docs := by
  obtain ⟨_, _, _, _, _, ihw, _, _⟩ := learnFold_spec docs initState
  rw [ihw]
  rfl

theorem learn_word_spam_get (docs : List Document) (t : Nat) :
    mapGet (learn_naive_bayes docs).word_spam t =
      if t ∈ vocabList docs then some (modelWordProb docs true t) else none := by
  obtain ⟨_, _, _, ihns, _, _, ihos, _⟩ := learnFold_spec docs initState
  simp only [learn_naive_bayes]
  rw [mapGet_foldl_mapInsert, learn_word_set docs]
  by_cases hm : t ∈ vocabList docs
  · simp only [hm, if_true]
    congr 1
    rw [smoothedProb, ihos t, ihns]
    have hnum : 1 + (1 + occTotal docs true t) = occTotal docs true t + 2 := by omega
    by_cases hc : occTotal docs true t = 0 <;>
      simp [hc, mapGet, initState, modelWordProb, hnum]
  · simp [hm, mapGet]

theorem learn_word_legit_get (docs : List Document) (t : Nat) :
    mapGet (learn_naive_bayes docs).word_legit t =
      if t ∈ vocabList docs then some (modelWordProb docs false t) else none := by
  obtain ⟨_, _, _, _, ihnl, _, _, ihol⟩ := learnFold_spec docs initState
  simp only [learn_naive_bayes]
  rw [mapGet_foldl_mapInsert, learn_word_set docs]
  by_cases hm : t ∈ vocabList docs
  · simp only [hm, if_true]
    congr 1
    rw [smoothedProb, ihol t, ihnl]
    have hnum : 1 + (1 + occTotal docs false t) = occTotal docs false t + 2 := by omega
    by_cases hc : occTotal docs false t = 0 <;>
      simp [hc, mapGet, initState, modelWordProb, hnum]
  · simp [hm, mapGet]

/-! ### The classifier loop and the log-domain bridge -/

theorem foldl_classifyStep (pr : NaiveBayesProbabilities) (doc : List Nat) (a b : ℚ) :
    doc.foldl (classifyStep pr) (a, b) =
      (a * ((doc.filterMap (fun w => mapGet pr.word_spam w)).prod),
       b * ((doc.filterMap (fun w => mapGet pr.word_legit w)).prod)) := by
  induction doc generalizing a b with
  | nil => simp
  | cons w ws ih =>
    rw [List.foldl_cons]
    cases hs : mapGet pr.word_spam w <;> cases hl : mapGet pr.word_legit w <;>
      simp [classifyStep, hs, hl, ih, List.filterMap_cons, mul_assoc]

theorem filterMap_mem_pos (m : List (Nat × ℚ)) (doc : List Nat)
    (h : ∀ w x, mapGet m w = some x → 0 < x) :
    ∀ x ∈ doc.filterMap (fun w => mapGet m w), 0 < x := by
  intro x hx
  rw [List.mem_filterMap] at hx
  obtain ⟨w, _, hw⟩ := hx
  exact h w x hw

theorem filterMap_prod_pos (m : List (Nat × ℚ)) (doc : List Nat)
    (h : ∀ w x, mapGet m w = some x → 0 < x) :
    0 < (doc.filterMap (fun w => mapGet m w)).prod :=
  List.prod_pos (filterMap_mem_pos m doc h)

theorem logb10_prod (l : List ℚ) (h : ∀ x ∈ l, 0 < x) :
    Real.logb 10 (((l.prod : ℚ) : ℝ)) =
      (l.map (fun x : ℚ => Real.logb 10 ((x : ℝ)))).sum := by
  induction l with
  | nil => simp
  | cons x xs ih =>
    have hx : (0:ℚ) < x := h x (by simp)
    have hxs : ∀ y ∈ xs, (0:ℚ) < y := fun y hy => h y (by simp [hy])
    have hprod : (0:ℚ) < xs.prod := List.prod_pos hxs
    rw [List.prod_cons, List.map_cons, List.sum_cons, ← ih hxs, Rat.cast_mul,
      Real.logb_mul (Rat.cast_ne_zero.mpr (ne_of_gt hx))
        (Rat.cast_ne_zero.mpr (ne_of_gt hprod))]

theorem logb10_le_iff (x y : ℚ) (hx : 0 < x) (hy : 0 < y) :
    Real.logb 10 ((x : ℝ)) ≤ Real.logb 10 ((y : ℝ)) ↔ x ≤ y := by
  rw [Real.logb_le_logb (by norm_num) (by exact_mod_cast hx) (by exact_mod_cast hy)]
  exact Rat.cast_le

theorem score_spam_eq_logb (pr : NaiveBayesProbabilities) (ts : List Nat)
    (hps : 0 < pr.spam)
    (hws : ∀ w x, mapGet pr.word_spam w = some x → 0 < x) :
    score_spam pr ts =
      Real.logb 10
        ((((ts.filterMap (fun w => mapGet pr.word_spam w)).prod * pr.spam : ℚ) : ℝ)) := by
  have hprod := filterMap_prod_pos pr.word_spam ts hws
  rw [score_spam, ← logb10_prod _ (filterMap_mem_pos pr.word_spam ts hws), Rat.cast_mul,
    Real.logb_mul (Rat.cast_ne_zero.mpr (ne_of_gt hprod))
      (Rat.cast_ne_zero.mpr (ne_of_gt hps))]
  exact add_comm _ _

theorem score_legit_eq_logb (pr : NaiveBayesProbabilities) (ts : List Nat)
    (hpl : 0 < pr.legit)
    (hwl : ∀ w x, mapGet pr.word_legit w = some x → 0 < x) :
    score_legit pr ts =
      Real.logb 10
        ((((ts.filterMap (fun w => mapGet pr.word_legit w)).prod * pr.legit : ℚ) : ℝ)) := by
  have hprod := filterMap_prod_pos pr.word_legit ts hwl
  rw [score_legit, ← logb10_prod _ (filterMap_mem_pos pr.word_legit ts hwl), Rat.cast_mul,
    Real.logb_mul (Rat.cast_ne_zero.mpr (ne_of_gt hprod))
      (Rat.cast_ne_zero.mpr (ne_of_gt hpl))]
  exact add_comm _ _

theorem classified_some_eq (pr : NaiveBayesProbabilities) (ts : List Nat) :
    classified_as_spam (some ts) pr =
      some (decide
        ((ts.filterMap (fun w => mapGet pr.word_legit w)).prod * pr.legit ≤
         (ts.filterMap (fun w => mapGet pr.word_spam w)).prod * pr.spam)) := by
  rw [show classified_as_spam (some ts) pr =
    some (decide ((ts.foldl (classifyStep pr) (1, 1)).2 * pr.legit ≤
      (ts.foldl (classifyStep pr) (1, 1)).1 * pr.spam)) from rfl]
  rw [foldl_classifyStep]
  simp

/-! ### The test loop -/

theorem counterStep_unreadable (pr : NaiveBayesProbabilities) (c : Confusion)
    (d : Document) (h : d.tokens = none) : counterStep pr c d = c := by
  simp [counterStep, h, classified_as_spam]

theorem counterStep_readable_sum (pr : NaiveBayesProbabilities) (c : Confusion)
    (d : Document) (ts : List Nat) (h : d.tokens = some ts) :
    (counterStep pr c d).true_positive + (counterStep pr c d).false_positive +
      (counterStep pr c d).false_negative + (counterStep pr c d).true_negative =
    c.true_positive + c.false_positive + c.false_negative + c.true_negative + 1 := by
  obtain ⟨b, hb⟩ : ∃ b, classified_as_spam (some ts) pr = some b := ⟨_, rfl⟩
  rw [show counterStep pr c d =
    (match classified_as_spam (some ts) pr with
      | some true =>
        if d.spmsg then { c with true_positive := c.true_positive + 1 }
        else { c with false_positive := c.false_positive + 1 }
      | some false =>
        if d.spmsg then { c with false_negative := c.false_negative + 1 }
        else { c with true_negative := c.true_negative + 1 }
      | none => c) from by rw [counterStep, h]]
  rw [hb]
  cases b <;> by_cases hsp : d.spmsg <;> simp [hsp] <;> omega

theorem foldl_counterStep_sum (pr : NaiveBayesProbabilities) (docs : List Document)
    (c0 : Confusion) :
    (docs.foldl (counterStep pr) c0).true_positive +
      (docs.foldl (counterStep pr) c0).false_positive +
      (docs.foldl (counterStep pr) c0).false_negative +
      (docs.foldl (counterStep pr) c0).true_negative =
    c0.true_positive + c0.false_positive + c0.false_negative + c0.true_negative +
      readCount docs := by
  induction docs generalizing c0 with
  | nil => simp [readCount]
  | cons d rest ih =>
    rw [List.foldl_cons, ih (counterStep pr c0 d)]
    cases h : d.tokens with
    | none =>
      rw [counterStep_unreadable pr c0 d h, readCount_cons_none d rest h]
    | some ts =>
      rw [counterStep_readable_sum pr c0 d ts h, readCount_cons_some d rest ts h]
      omega

/-! ### The cross-validation loop -/

theorem cross_validate_cvBody (docs : List Document) :
    cross_validate docs = cvBody (usedDocs docs) := by
  rw [cross_validate, List.partition_eq_filter_filter]
  rfl

theorem foldl_add_pair (f g : Nat → ℚ) (l : List Nat) (p : ℚ × ℚ) :
    l.foldl (fun rp x => (rp.1 + f x, rp.2 + g x)) p =
      (p.1 + (l.map f).sum, p.2 + (l.map g).sum) := by
  induction l generalizing p with
  | nil => simp
  | cons x xs ih => rw [List.foldl_cons, ih]; simp [add_assoc]

theorem cvBody_eq (used : List Document) :
    cvBody used =
      (((List.range 10).map fun j =>
          recallOf (test_counters (used.filter fun d => d.part == j + 1)
            (learn_naive_bayes (used.filter fun d => !(d.part == j + 1))))).sum / 10,
       ((List.range 10).map fun j =>
          precisionOf (test_counters (used.filter fun d => d.part == j + 1)
            (learn_naive_bayes (used.filter fun d => !(d.part == j + 1))))).sum / 10) := by
  simp only [cvBody, test_naive_bayes, List.partition_eq_filter_filter]
  rw [foldl_add_pair]
  simp [Function.comp_def]

theorem usedDocs_skip (l1 l2 : List Document) (d : Document) (hd : d.unused = true) :
    usedDocs (l1 ++ d :: l2) = usedDocs (l1 ++ l2) := by
  simp [usedDocs, List.filter_append, List.filter_cons, hd]

theorem spamCount_add_legitCount (docs : List Document) :
    spamCount docs + legitCount docs = readCount docs := by
  induction docs with
  | nil => rfl
  | cons d rest ih =>
    simp only [spamCount, legitCount, readCount] at ih ⊢
    cases h : d.tokens with
    | none =>
      rw [classTokens_cons_none d rest true h, classTokens_cons_none d rest false h]
      simp only [List.filterMap_cons, h]
      exact ih
    | some ts =>
      cases hb : d.spmsg with
      | true =>
        rw [classTokens_cons_eq d rest true ts h hb,
            classTokens_cons_ne d rest false (by simp [hb])]
        simp only [List.filterMap_cons, h, List.length_cons]
        omega
      | false =>
        rw [classTokens_cons_ne d rest true (by simp [hb]),
            classTokens_cons_eq d rest false ts h hb]
        simp only [List.filterMap_cons, h, List.length_cons]
        omega

/-! ### The claims -/

/-- C1 counterexample: on the §8 training set (spam documents `[1,2]` and
`[2,3]`, legit documents `[4]` and `[4,5]`) the trained model stores
`p(1|spam) = 3/9 = 1/3` — not the `2/8` the claim quotes, and not even the
`(1 + occ)/(n_spam + |V|) = (1+1)/(4+5) = 2/9` of the claim's own general
formula. -/
theorem c1_counterexample :
    mapGet (learn_naive_bayes exDocs).word_spam 1 = some (1/3) ∧
    ((1 : ℚ)/3 ≠ 2/8) ∧ ((1 : ℚ)/3 ≠ 2/9) := by
  refine ⟨?_, by norm_num, by norm_num⟩
  rw [learn_word_spam_get]
  rw [if_pos (show (1:Nat) ∈ vocabList exDocs by decide)]
  rw [show modelWordProb exDocs true 1 =
    ((3 : Nat) : ℚ) / ((9 : Nat) : ℚ) from by
      rw [modelWordProb, show occTotal exDocs true 1 = 1 from by decide,
        show nTokens exDocs true = 4 from by decide,
        show (vocabList exDocs).length = 5 from by decide]
      norm_num]
  norm_num

/-- C1 (amended): for every training set and every token `t` of the training
vocabulary, the stored conditional probability for class `c` is
`(occ + 2) / (n_c + |V|)` when `t` occurs `occ ≥ 1` times in class `c`, and
`1 / (n_c + |V|)` when it does not occur in `c` (`modelWordProb`): the
`or_insert(1) += 1` counting makes the stored count exceed the true
occurrence count by one. On the §8 set this gives `p(1|spam) = 3/9`,
`p(2|spam) = 4/9`, `p(4|legit) = 4/8`. -/
theorem c1_amended (docs : List Document) (t : Nat) (ht : t ∈ vocabList docs) :
    mapGet (learn_naive_bayes docs).word_spam t = some (modelWordProb docs true t) ∧
    mapGet (learn_naive_bayes docs).word_legit t = some (modelWordProb docs false t) := by
  rw [learn_word_spam_get, learn_word_legit_get]
  simp [ht]

/-- Witness for `c1_amended`: token `1` of the §8 training set. -/
theorem c1_witness :
    (1 ∈ vocabList exDocs) ∧
    mapGet (learn_naive_bayes exDocs).word_spam 1 = some (modelWordProb exDocs true 1) ∧
    mapGet (learn_naive_bayes exDocs).word_legit 1 = some (modelWordProb exDocs false 1) :=
  ⟨by decide, c1_amended exDocs 1 (by decide)⟩

/-- C2: for every model (with the positive probabilities training produces)
and every readable token sequence, the classifier answers spam exactly when
`score_spam >= score_legit` over the log10 scores of §4.2; in particular a
document whose two scores are exactly equal is classified as spam. -/
theorem c2_classified_iff_scores (pr : NaiveBayesProbabilities) (ts : List Nat)
    (hps : 0 < pr.spam) (hpl : 0 < pr.legit)
    (hws : ∀ w x, mapGet pr.word_spam w = some x → 0 < x)
    (hwl : ∀ w x, mapGet pr.word_legit w = some x → 0 < x) :
    (classified_as_spam (some ts) pr = some true ↔
      score_legit pr ts ≤ score_spam pr ts) ∧
    (score_spam pr ts = score_legit pr ts →
      classified_as_spam (some ts) pr = some true) := by
  have hprodS := filterMap_prod_pos pr.word_spam ts hws
  have hprodL := filterMap_prod_pos pr.word_legit ts hwl
  have hiff : classified_as_spam (some ts) pr = some true ↔
      score_legit pr ts ≤ score_spam pr ts := by
    rw [classified_some_eq, score_spam_eq_logb pr ts hps hws,
        score_legit_eq_logb pr ts hpl hwl,
        logb10_le_iff _ _ (mul_pos hprodL hpl) (mul_pos hprodS hps)]
    simp
  exact ⟨hiff, fun h => hiff.mpr (le_of_eq h.symm)⟩

/-- Witness for `c2_classified_iff_scores`: under `tieModel` the two scores
of the empty document are exactly equal, and the document is classified as
spam. -/
theorem c2_witness :
    (0 : ℚ) < tieModel.spam ∧
    score_spam tieModel [] = score_legit tieModel [] ∧
    classified_as_spam (some []) tieModel = some true := by
  have hc := c2_classified_iff_scores tieModel []
    (by norm_num [tieModel]) (by norm_num [tieModel])
    (by intro w x hx; simp [tieModel, mapGet] at hx)
    (by intro w x hx; simp [tieModel, mapGet] at hx)
  have heq : score_spam tieModel [] = score_legit tieModel [] := by
    simp [score_spam, score_legit, tieModel]
  exact ⟨by norm_num [tieModel], heq, hc.2 heq⟩

/-- C3: tokens outside the training vocabulary are absent from both word
maps, so they add nothing to either score: both scores collapse to the
`log10` of the priors, and (for positive priors) the decision compares the
priors alone. -/
theorem c3_absent_tokens_priors (docs : List Document) (ts : List Nat)
    (hd : ∀ w ∈ ts, w ∉ vocabList docs) :
    score_spam (learn_naive_bayes docs) ts =
      Real.logb 10 (((learn_naive_bayes docs).spam : ℝ)) ∧
    score_legit (learn_naive_bayes docs) ts =
      Real.logb 10 (((learn_naive_bayes docs).legit : ℝ)) ∧
    (0 < (learn_naive_bayes docs).spam → 0 < (learn_naive_bayes docs).legit →
      (classified_as_spam (some ts) (learn_naive_bayes docs) = some true ↔
        Real.logb 10 (((learn_naive_bayes docs).legit : ℝ)) ≤
          Real.logb 10 (((learn_naive_bayes docs).spam : ℝ)))) := by
  have hs : ts.filterMap (fun w => mapGet (learn_naive_bayes docs).word_spam w) = [] := by
    rw [List.filterMap_eq_nil_iff]
    intro w hw
    rw [learn_word_spam_get]
    simp [hd w hw]
  have hl : ts.filterMap (fun w => mapGet (learn_naive_bayes docs).word_legit w) = [] := by
    rw [List.filterMap_eq_nil_iff]
    intro w hw
    rw [learn_word_legit_get]
    simp [hd w hw]
  refine ⟨?_, ?_, ?_⟩
  · rw [score_spam, hs]; simp
  · rw [score_legit, hl]; simp
  · intro hps hpl
    rw [classified_some_eq, hs, hl]
    simp only [List.prod_nil, one_mul, Option.some.injEq, decide_eq_true_eq]
    exact (logb10_le_iff _ _ hpl hps).symm

/-- Witness for `c3_absent_tokens_priors`: the tokens `[9, 10]` are disjoint
from the §8 training vocabulary `{1,2,3,4,5}`. -/
theorem c3_witness :
    (∀ w ∈ [9, 10], w ∉ vocabList exDocs) ∧
    (score_spam (learn_naive_bayes exDocs) [9, 10] =
      Real.logb 10 (((learn_naive_bayes exDocs).spam : ℝ)) ∧
    score_legit (learn_naive_bayes exDocs) [9, 10] =
      Real.logb 10 (((learn_naive_bayes exDocs).legit : ℝ)) ∧
    (0 < (learn_naive_bayes exDocs).spam → 0 < (learn_naive_bayes exDocs).legit →
      (classified_as_spam (some [9, 10]) (learn_naive_bayes exDocs) = some true ↔
        Real.logb 10 (((learn_naive_bayes exDocs).legit : ℝ)) ≤
          Real.logb 10 (((learn_naive_bayes exDocs).spam : ℝ))))) :=
  ⟨by decide, c3_absent_tokens_priors exDocs [9, 10] (by decide)⟩

/-- C4: for a training set with at least one readable document the priors
are the per-class document fractions and they sum to `1`. -/
theorem c4_priors (docs : List Document) (h : 0 < readCount docs) :
    (learn_naive_bayes docs).spam = (spamCount docs : ℚ) / (readCount docs : ℚ) ∧
    (learn_naive_bayes docs).legit = (legitCount docs : ℚ) / (readCount docs : ℚ) ∧
    (learn_naive_bayes docs).spam + (learn_naive_bayes docs).legit = 1 := by
  refine ⟨learn_spam_prior docs, learn_legit_prior docs, ?_⟩
  rw [learn_spam_prior, learn_legit_prior, div_add_div_same,
      ← Nat.cast_add, spamCount_add_legitCount]
  exact div_self (by exact_mod_cast Nat.pos_iff_ne_zero.mp h)

/-- Witness for `c4_priors`: the §8 training set (4 readable documents). -/
theorem c4_witness :
    (0 < readCount exDocs) ∧
    ((learn_naive_bayes exDocs).spam = (spamCount exDocs : ℚ) / (readCount exDocs : ℚ) ∧
    (learn_naive_bayes exDocs).legit = (legitCount exDocs : ℚ) / (readCount exDocs : ℚ) ∧
    (learn_naive_bayes exDocs).spam + (learn_naive_bayes exDocs).legit = 1) :=
  ⟨by decide, c4_priors exDocs (by decide)⟩

/-- C5: every token of the training vocabulary gets an entry in both word
maps — also in the map of a class it never occurred in — and every stored
probability is strictly positive. -/
theorem c5_vocab_entries_positive (docs : List Document) (t : Nat)
    (ht : t ∈ vocabList docs) :
    (∃ q, mapGet (learn_naive_bayes docs).word_spam t = some q ∧ 0 < q) ∧
    (∃ q, mapGet (learn_naive_bayes docs).word_legit t = some q ∧ 0 < q) := by
  have hlen : 0 < (vocabList docs).length :=
    List.length_pos.mpr (List.ne_nil_of_mem ht)
  constructor
  · refine ⟨modelWordProb docs true t, ?_, ?_⟩
    · rw [learn_word_spam_get]; simp [ht]
    · rw [modelWordProb]
      apply div_pos
      · exact_mod_cast Nat.pos_iff_ne_zero.mpr (by split <;> omega)
      · exact_mod_cast Nat.pos_iff_ne_zero.mpr (by omega)
  · refine ⟨modelWordProb docs false t, ?_, ?_⟩
    · rw [learn_word_legit_get]; simp [ht]
    · rw [modelWordProb]
      apply div_pos
      · exact_mod_cast Nat.pos_iff_ne_zero.mpr (by split <;> omega)
      · exact_mod_cast Nat.pos_iff_ne_zero.mpr (by omega)

/-- Witness for `c5_vocab_entries_positive`: token `3` occurs only in spam in
the §8 set, yet gets positive entries in both maps. -/
theorem c5_witness :
    (3 ∈ vocabList exDocs) ∧
    ((∃ q, mapGet (learn_naive_bayes exDocs).word_spam 3 = some q ∧ 0 < q) ∧
    (∃ q, mapGet (learn_naive_bayes exDocs).word_legit 3 = some q ∧ 0 < q)) :=
  ⟨by decide, c5_vocab_entries_positive exDocs 3 (by decide)⟩

/-- C6 counterexample: training on the empty set does not signal any
failure — `learn_naive_bayes` has no error channel and returns an ordinary
model — and its priors are the two `0 / 0` divisions (`NaN` in the source's
`f64`; the junk value `0` in the exact `ℚ` embedding), which do not form a
probability distribution. -/
theorem c6_counterexample :
    learn_naive_bayes [] =
      { spam := (0 : ℚ) / 0, legit := (0 : ℚ) / 0,
        word_spam := [], word_legit := [] } ∧
    (learn_naive_bayes []).spam + (learn_naive_bayes []).legit ≠ 1 := by
  constructor
  · simp [learn_naive_bayes, initState]
  · norm_num [learn_naive_bayes, initState]

/-- C6 (amended): on a training set with no readable document the trainer
does not signal a failure: it returns a model whose priors are the results
of the division by zero (`NaN` in `f64`, `0` in the exact embedding), and in
particular they do not sum to `1`. -/
theorem c6_amended (docs : List Document) (h : readCount docs = 0) :
    (learn_naive_bayes docs).spam = 0 ∧ (learn_naive_bayes docs).legit = 0 ∧
    (learn_naive_bayes docs).spam + (learn_naive_bayes docs).legit ≠ 1 := by
  have hs : (learn_naive_bayes docs).spam = 0 := by
    rw [learn_spam_prior, h]; simp
  have hl : (learn_naive_bayes docs).legit = 0 := by
    rw [learn_legit_prior, h]; simp
  exact ⟨hs, hl, by rw [hs, hl]; norm_num⟩

/-- Witness for `c6_amended`: a one-document training set whose only file is
unreadable. -/
theorem c6_witness :
    (readCount [badDoc] = 0) ∧
    ((learn_naive_bayes [badDoc]).spam = 0 ∧ (learn_naive_bayes [badDoc]).legit = 0 ∧
    (learn_naive_bayes [badDoc]).spam + (learn_naive_bayes [badDoc]).legit ≠ 1) :=
  ⟨by decide, c6_amended [badDoc] (by decide)⟩

/-- C7: an unreadable test document is skipped — the four confusion counters
are exactly those of the same test set without it, and the remaining
documents before and after it are still evaluated (the returned metrics are
unchanged). -/
theorem c7_unreadable_skipped (pr : NaiveBayesProbabilities) (l1 l2 : List Document)
    (d : Document) (h : d.tokens = none) :
    test_counters (l1 ++ d :: l2) pr = test_counters (l1 ++ l2) pr ∧
    test_naive_bayes (l1 ++ d :: l2) pr = test_naive_bayes (l1 ++ l2) pr := by
  have hc : test_counters (l1 ++ d :: l2) pr = test_counters (l1 ++ l2) pr := by
    simp [test_counters, List.foldl_append, counterStep_unreadable, h]
  exact ⟨hc, by rw [test_naive_bayes, test_naive_bayes, hc]⟩

/-- Witness for `c7_unreadable_skipped`: a single unreadable document
against `tieModel` leaves the counters at zero. -/
theorem c7_witness :
    (badDoc.tokens = none) ∧
    (test_counters ([] ++ badDoc :: []) tieModel = test_counters ([] ++ []) tieModel ∧
    test_naive_bayes ([] ++ badDoc :: []) tieModel = test_naive_bayes ([] ++ []) tieModel) :=
  ⟨rfl, c7_unreadable_skipped tieModel [] [] badDoc rfl⟩

/-- C8: the cross-validation of `main` runs exactly the folds `1..10` and
returns, for each metric, the sum of the ten per-fold values divided by
`10` — the arithmetic mean of per-fold results, not a pooled confusion
matrix — where fold `i`'s recall is `TP/(TP+FN)` (`recallOf`) and its
precision `TP/(TP+FP)` (`precisionOf`) over that fold's own counters. -/
theorem c8_cross_validation_mean (docs : List Document) :
    cross_validate docs =
      (((List.range 10).map fun j => recallOf (foldConfusion docs (j + 1))).sum / 10,
       ((List.range 10).map fun j => precisionOf (foldConfusion docs (j + 1))).sum / 10) := by
  rw [cross_validate_cvBody, cvBody_eq]
  rfl

/-- C9: a document flagged "unused" is dropped before the folds are formed:
every fold's confusion counters, and the final cross-validation result, are
the same as if the document were not in the collection at all. -/
theorem c9_unused_excluded (l1 l2 : List Document) (d : Document)
    (hd : d.unused = true) :
    (∀ i, foldConfusion (l1 ++ d :: l2) i = foldConfusion (l1 ++ l2) i) ∧
    cross_validate (l1 ++ d :: l2) = cross_validate (l1 ++ l2) := by
  have hu := usedDocs_skip l1 l2 d hd
  constructor
  · intro i
    rw [foldConfusion, foldConfusion, foldTestSet, foldTestSet,
        foldTrainSet, foldTrainSet, hu]
  · rw [cross_validate_cvBody, cross_validate_cvBody, hu]

/-- Witness for `c9_unused_excluded`: one "unused" document alone behaves
like the empty collection. -/
theorem c9_witness :
    (unusedDoc.unused = true) ∧
    ((∀ i, foldConfusion ([] ++ unusedDoc :: []) i = foldConfusion ([] ++ []) i) ∧
    cross_validate ([] ++ unusedDoc :: []) = cross_validate ([] ++ [])) :=
  ⟨rfl, c9_unused_excluded [] [] unusedDoc rfl⟩

/-- C10: every successfully read test document lands in exactly one of the
four confusion counters, so their sum equals the number of readable test
documents. -/
theorem c10_counters_sum (docs : List Document) (pr : NaiveBayesProbabilities) :
    (test_counters docs pr).true_positive + (test_counters docs pr).false_positive +
      (test_counters docs pr).false_negative + (test_counters docs pr).true_negative =
    readCount docs := by
  have h := foldl_counterStep_sum pr docs ⟨0, 0, 0, 0⟩
  simpa [test_counters] using h
